import Mathlib

/-!
Formal model of The Weekly Spaceman project-management app.

The embedding follows the Express task API in server.js (the CORS-enabled
in-memory CRUD server with VALID_STATUSES) and the handleDrop handler of
the React board component in project_management_app.jsx.  JavaScript
strings are modelled as Lean Strings (lists of characters; the length of
a string counts characters, matching the JS code-unit count for the
ASCII/BMP strings this app manipulates).  JSON request bodies are records
of optional fields, where none models an absent key.  Two JS builtins
that the routes call are modelled explicitly below: String.prototype.trim
and String.prototype.includes; uuidv4 and Date.parse are modelled as
documented at their definitions.
-/

namespace WeeklySpaceman

/-- Whitespace recognised by the model of JavaScript String.prototype.trim.
The app only ever stores ASCII whitespace, so the ASCII subset suffices. -/
def isJsWs (c : Char) : Bool := c == ' ' || c == '\t' || c == '\n' || c == '\r'

/-- Drop leading whitespace from a character list. -/
def trimLeftChars (l : List Char) : List Char := l.dropWhile isJsWs

/-- Drop trailing whitespace from a character list. -/
def trimRightChars (l : List Char) : List Char := (l.reverse.dropWhile isJsWs).reverse

/-- Both ends trimmed. -/
def jsTrimChars (l : List Char) : List Char := trimRightChars (trimLeftChars l)

/-- Models JavaScript String.prototype.trim: removes leading and trailing
whitespace. -/
def jsTrim (s : String) : String := String.mk (jsTrimChars s.data)

/-- Does the first list start with the second one? -/
def startsWithChars : List Char → List Char → Bool
  | _, [] => true
  | [], _ :: _ => false
  | a :: as, b :: bs => a == b && startsWithChars as bs

/-- Does the first list contain the second as a contiguous run? -/
def containsChars (hay needle : List Char) : Bool :=
  match hay with
  | [] => needle.isEmpty
  | _ :: t => startsWithChars hay needle || containsChars t needle

/-- Models JavaScript String.prototype.includes: substring test. -/
def jsIncludes (s sub : String) : Bool := containsChars s.data sub.data

/-- Models the fragment of JavaScript Date.parse that the routes exercise,
as a Bool saying whether the parse succeeds (the routes only ever test
isNaN of the result).  ISO dates of the form YYYY-MM-DD parse; the V8
fallback date parser skips surrounding whitespace, so whitespace-padded
ISO dates parse as well; the remaining strings appearing in this
development do not parse. -/
def isYmdChars : List Char → Bool
  | [y1, y2, y3, y4, h1, m1, m2, h2, d1, d2] =>
    y1.isDigit && y2.isDigit && y3.isDigit && y4.isDigit && h1 == '-' &&
    m1.isDigit && m2.isDigit && h2 == '-' && d1.isDigit && d2.isDigit
  | _ => false

/-- See isYmdChars: successful-parse test for Date.parse. -/
def jsDateParseOk (s : String) : Bool := isYmdChars (jsTrimChars s.data)

/-- A task record, as stored in the servers in-memory tasks array.
Timestamps (createdAt, updatedAt, obtained from new Date in the code) are
modelled as natural numbers.  Task ids are uuid strings in the code,
modelled as natural numbers handed out by a fresh-id counter (see Store).
The extra field models unknown string-valued JSON keys that the update
route can copy into a task through the object spread; tasks built by the
create route have no such keys.  The extra association list binds each
key at most once in well-formed use; the first binding wins on lookup. -/
structure Task where
  id : Nat
  title : String
  description : String
  assignee : String
  dueDate : String
  status : String
  createdAt : Nat
  updatedAt : Nat
  extra : List (String × String)
deriving DecidableEq

/-- Server state: the in-memory tasks array plus the id source.  uuidv4 is
modelled as a counter that returns nextId and increments, which captures
the guarantee the code relies on: every generated id is fresh. -/
structure Store where
  tasks : List Task
  nextId : Nat
deriving DecidableEq

/-- The store at server start: empty tasks array. -/
def Store.init : Store := { tasks := [], nextId := 0 }

/-- The fixed workflow stages, in order (server.js VALID_STATUSES, mirrored
by STATUS_ORDER in the client). -/
def VALID_STATUSES : List String :=
  ["Idea", "Assigned", "Drafting", "Editing", "Fact-Check", "Scheduled", "Published"]

/-- A JSON request body for the create and update routes: any subset of
the task fields, the server-owned keys id, createdAt and updatedAt
should the client send them (the create route ignores them and the
update route overwrites all three after its spread), plus arbitrary
further string-valued keys (extra) outside the task field names.
none models an absent key. -/
structure ReqBody where
  title : Option String := none
  description : Option String := none
  assignee : Option String := none
  dueDate : Option String := none
  status : Option String := none
  id : Option Nat := none
  createdAt : Option Nat := none
  updatedAt : Option Nat := none
  extra : List (String × String) := []
deriving DecidableEq

/-- A value inside a JSON response object. -/
inductive BodyVal where
  | s (v : String)
  | t (v : Task)
deriving DecidableEq

/-- The observable responses of the route handlers.  listR, okTask and
okBody are res.json calls (HTTP 200); createdR is res.status(201).json;
err carries an explicit status code and the error message. -/
inductive ApiResult where
  | listR (ts : List Task)
  | createdR (t : Task)
  | okTask (t : Task)
  | okBody (body : List (String × BodyVal))
  | err (code : Nat) (msg : String)
deriving DecidableEq

/-- HTTP status code of a response. -/
def ApiResult.statusCode : ApiResult → Nat
  | .listR _ => 200
  | .createdR _ => 201
  | .okTask _ => 200
  | .okBody _ => 200
  | .err c _ => c

/-- Embeds the GET /tasks route: sequentially filters by the status and
assignee query parameters.  A query parameter is an Option String (none
when absent); the JS truthiness guards skip a filter when the parameter
is absent or the empty string.  Status matches by strict equality,
assignee by case-insensitive substring. -/
def appGetTasks (store : Store) (statusQ assigneeQ : Option String) : Store × ApiResult :=
  let f1 : List Task :=
    match statusQ with
    | some st => if st == "" then store.tasks else store.tasks.filter (fun t => t.status == st)
    | none => store.tasks
  let f2 : List Task :=
    match assigneeQ with
    | some a => if a == "" then f1 else f1.filter (fun t => jsIncludes t.assignee.toLower a.toLower)
    | none => f1
  (store, ApiResult.listR f2)

/-- Embeds the POST /tasks route: destructures the body with defaults,
validates title, title length, description length, status and dueDate in
that order with early 400 returns, then pushes the new task (trimmed
title, description and assignee; raw dueDate; fresh id; both timestamps
now) and answers 201. -/
def appPostTasks (store : Store) (body : ReqBody) (now : Nat) : Store × ApiResult :=
  let description := body.description.getD ""
  let assignee := body.assignee.getD ""
  let dueDate := body.dueDate.getD ""
  let status := body.status.getD "Idea"
  match body.title with
  | none => (store, ApiResult.err 400 "Title is required and must be a non-empty string")
  | some title =>
    if jsTrim title == "" then
      (store, ApiResult.err 400 "Title is required and must be a non-empty string")
    else if title.length > 200 then
      (store, ApiResult.err 400 "Title must be 200 characters or less")
    else if description != "" && description.length > 2000 then
      (store, ApiResult.err 400 "Description must be 2000 characters or less")
    else if !(VALID_STATUSES.contains status) then
      (store, ApiResult.err 400 ("Invalid status. Must be one of: " ++ String.intercalate ", " VALID_STATUSES))
    else if dueDate != "" && !(jsDateParseOk dueDate) then
      (store, ApiResult.err 400 "Invalid date format for dueDate")
    else
      let newTask : Task :=
        { id := store.nextId
          title := jsTrim title
          description := jsTrim description
          assignee := jsTrim assignee
          dueDate := dueDate
          status := status
          createdAt := now
          updatedAt := now
          extra := [] }
      ({ tasks := store.tasks ++ [newTask], nextId := store.nextId + 1 }, ApiResult.createdR newTask)

/-- The conditional trim the update route applies to title, description
and assignee of the merged task: a truthiness guard, so the empty string
is left alone and every other string is trimmed. -/
def condTrim (s : String) : String := if s == "" then s else jsTrim s

/-- Embeds the PUT /tasks/:id route.  findIndex is List.findIdx (the
no-match result -1 corresponds to findIdx returning the length).  After
the 404 check the route validates each body field that is present (title
non-empty and at most 200 chars, description at most 2000 chars, status
in VALID_STATUSES, truthy dueDate parseable), then merges by object
spread: body fields override the existing task, id and createdAt are
restored from the existing task and updatedAt is set to now - the three
object-literal keys written after the spread override any id, createdAt
or updatedAt the body carries - and unknown body keys land in extra
with the body binding shadowing any older one.
Finally title, description and assignee are trimmed when truthy. -/
def appPutTask (store : Store) (id : Nat) (body : ReqBody) (now : Nat) : Store × ApiResult :=
  let taskIndex := store.tasks.findIdx (fun t => t.id == id)
  if h : taskIndex < store.tasks.length then
    if body.title.isSome && (jsTrim (body.title.getD "") == "") then
      (store, ApiResult.err 400 "Title must be a non-empty string")
    else if body.title.isSome && (body.title.getD "").length > 200 then
      (store, ApiResult.err 400 "Title must be 200 characters or less")
    else if body.description.isSome && (body.description.getD "").length > 2000 then
      (store, ApiResult.err 400 "Description must be 2000 characters or less")
    else if body.status.isSome && !(VALID_STATUSES.contains (body.status.getD "")) then
      (store, ApiResult.err 400 ("Invalid status. Must be one of: " ++ String.intercalate ", " VALID_STATUSES))
    else if body.dueDate.isSome && (body.dueDate.getD "") != "" && !(jsDateParseOk (body.dueDate.getD "")) then
      (store, ApiResult.err 400 "Invalid date format for dueDate")
    else
      let existingTask := store.tasks.get ⟨taskIndex, h⟩
      let merged : Task :=
        { id := existingTask.id
          title := body.title.getD existingTask.title
          description := body.description.getD existingTask.description
          assignee := body.assignee.getD existingTask.assignee
          dueDate := body.dueDate.getD existingTask.dueDate
          status := body.status.getD existingTask.status
          createdAt := existingTask.createdAt
          updatedAt := now
          extra := body.extra ++ existingTask.extra }
      let updatedTask : Task :=
        { merged with
          title := condTrim merged.title
          description := condTrim merged.description
          assignee := condTrim merged.assignee }
      ({ store with tasks := store.tasks.set taskIndex updatedTask }, ApiResult.okTask updatedTask)
  else
    (store, ApiResult.err 404 "Task not found")

/-- Embeds the DELETE /tasks/:id route: findIndex, 404 when absent,
otherwise splice out the task and answer with the message object whose
task key carries the removed record. -/
def appDeleteTask (store : Store) (id : Nat) : Store × ApiResult :=
  let taskIndex := store.tasks.findIdx (fun t => t.id == id)
  if h : taskIndex < store.tasks.length then
    let deletedTask := store.tasks.get ⟨taskIndex, h⟩
    ({ store with tasks := store.tasks.eraseIdx taskIndex },
     ApiResult.okBody [("message", BodyVal.s "Task deleted"), ("task", BodyVal.t deletedTask)])
  else
    (store, ApiResult.err 404 "Task not found")

/-- A mutating API call: the three routes that can change the store. -/
inductive Op where
  | create (body : ReqBody) (now : Nat)
  | update (id : Nat) (body : ReqBody) (now : Nat)
  | del (id : Nat)
deriving DecidableEq

/-- Dispatch one call to its route handler. -/
def applyOp (store : Store) : Op → Store × ApiResult
  | Op.create body now => appPostTasks store body now
  | Op.update id body now => appPutTask store id body now
  | Op.del id => appDeleteTask store id

/-- The store after a sequence of API calls. -/
def runOps (store : Store) : List Op → Store
  | [] => store
  | op :: rest => runOps (applyOp store op).fst rest

/-- The ids of the tasks returned by the successful creates in a sequence
of API calls, in order. -/
def createdIds (store : Store) : List Op → List Nat
  | [] => []
  | op :: rest =>
    match (applyOp store op).snd with
    | ApiResult.createdR t => t.id :: createdIds (applyOp store op).fst rest
    | _ => createdIds (applyOp store op).fst rest

/-- The body the board client sends to change a status and nothing else:
JSON.stringify of a status-only object (updateTaskStatus in
project_management_app.jsx). -/
def statusOnlyBody (st : String) : ReqBody := { status := some st }

/-- A PUT /tasks/:id request the board client issues. -/
structure ClientUpdateReq where
  taskId : Nat
  body : ReqBody
deriving DecidableEq

/-- Embeds handleDrop of project_management_app.jsx: on drop over the
column colStatus, when a drag is in progress (draggedTaskId set; uuid
strings are always truthy) and the dragged task is found and its status
differs from the drop column, the client calls updateTaskStatus, which
issues a PUT with a status-only body.  Returns the request issued, or
none when no request is issued. -/
def handleDrop (draggedTaskId : Option Nat) (tasks : List Task) (colStatus : String) :
    Option ClientUpdateReq :=
  match draggedTaskId with
  | none => none
  | some tid =>
    match tasks.find? (fun t => t.id == tid) with
    | none => none
    | some task =>
      if task.status != colStatus then some ⟨tid, statusOnlyBody colStatus⟩ else none

/-- A character list whose head, if any, is not whitespace. -/
def NoWsHead (l : List Char) : Prop := ∀ c, l.head? = some c → isJsWs c = false

/-- The invariant on a stored task: title, description and assignee carry
no leading or trailing whitespace. -/
def TrimmedTask (t : Task) : Prop :=
  jsTrim t.title = t.title ∧ jsTrim t.description = t.description ∧ jsTrim t.assignee = t.assignee

/-- Follows the wording of the spec (section 4.1, list): a task matches
when every provided filter matches it - status by exact equality,
assignee by case-insensitive substring - and a missing (or JS-falsy,
i.e. empty) filter matches everything. -/
def specListMatch (statusQ assigneeQ : Option String) (t : Task) : Bool :=
  (match statusQ with
   | none => true
   | some st => if st == "" then true else t.status == st) &&
  (match assigneeQ with
   | none => true
   | some a => if a == "" then true else jsIncludes t.assignee.toLower a.toLower)

/-- A body whose only binding is one unknown string-valued key. -/
def extraOnlyBody (k v : String) : ReqBody := { extra := [(k, v)] }

/-! Concrete fixtures used by the witness and counterexample theorems. -/

/-- A stored task as the create route would produce it. -/
def task0 : Task :=
  { id := 0, title := "Draft piece", description := "", assignee := "Ada",
    dueDate := "", status := "Idea", createdAt := 0, updatedAt := 0, extra := [] }

/-- A store holding exactly task0. -/
def store1 : Store := { tasks := [task0], nextId := 1 }

/-- A create body with whitespace-padded title and assignee and no
status. -/
def rawBody : ReqBody := { title := some "  Hello  ", assignee := some " Ada " }

/-- The task the create route stores for rawBody at time 4. -/
def rawBodyTask : Task :=
  { id := 0, title := "Hello", description := "", assignee := "Ada",
    dueDate := "", status := "Idea", createdAt := 4, updatedAt := 4, extra := [] }

/-- A create body whose dueDate is whitespace-padded yet parseable. -/
def paddedDueBody : ReqBody :=
  { title := some "Launch article", dueDate := some " 2024-01-01" }

/-- A 201-character title that trims to a single character. -/
def longTitle : String := String.mk (List.replicate 200 ' ' ++ ['x'])

/-- A body holding only an all-whitespace title. -/
def wsTitleBody : ReqBody := { title := some "   " }

/-- A body holding only the overlong title. -/
def longTitleBody : ReqBody := { title := some longTitle }

/-- An update body whose only binding is the server-owned key updatedAt. -/
def updatedAtBody : ReqBody := { updatedAt := some 42 }

/-! Basic properties of the trimming model, leading to idempotence of
jsTrim, which underlies the stored-fields-are-trimmed invariant. -/

/-- dropWhile is idempotent. -/
theorem dropWhile_self {α : Type} (p : α → Bool) :
    (l : List α) → (l.dropWhile p).dropWhile p = l.dropWhile p
  | [] => rfl
  | a :: t => by
    cases hp : p a with
    | true => rw [List.dropWhile_cons_of_pos hp]; exact dropWhile_self p t
    | false => rw [List.dropWhile_cons_of_neg (by simp [hp]), List.dropWhile_cons_of_neg (by simp [hp])]

/-- After dropping leading whitespace, the head is not whitespace. -/
theorem noWsHead_dropWhile (l : List Char) : NoWsHead (l.dropWhile isJsWs) := by
  induction l with
  | nil => intro c hc; simp [List.dropWhile] at hc
  | cons a t ih =>
    cases ha : isJsWs a with
    | true => rw [List.dropWhile_cons_of_pos ha]; exact ih
    | false =>
      rw [List.dropWhile_cons_of_neg (by simp [ha])]
      intro c hc
      simp only [List.head?_cons, Option.some.injEq] at hc
      rw [← hc]; exact ha

/-- Dropping leading whitespace from a list with no leading whitespace
changes nothing. -/
theorem dropWhile_eq_self_of_noWsHead (l : List Char) (h : NoWsHead l) :
    l.dropWhile isJsWs = l := by
  cases l with
  | nil => rfl
  | cons a t => exact List.dropWhile_cons_of_neg (by simp [h a rfl])

/-- No-leading-whitespace is inherited by list-prefixes. -/
theorem noWsHead_of_prefix_self {l₁ l₂ : List Char} (hp : l₂ <+: l₁) (h : NoWsHead l₁) :
    NoWsHead l₂ := by
  obtain ⟨t, ht⟩ := hp
  intro c hc
  apply h
  cases l₂ with
  | nil => simp at hc
  | cons b bs =>
    simp only [List.head?_cons, Option.some.injEq] at hc
    rw [← ht, ← hc]
    rfl

/-- Trimming on the right keeps a prefix of the list. -/
theorem trimRightChars_prefix_self (l : List Char) : trimRightChars l <+: l := by
  have h : l.reverse.dropWhile isJsWs <:+ l.reverse := List.dropWhile_suffix _
  have h2 := List.reverse_prefix.mpr h
  rwa [List.reverse_reverse] at h2

/-- Trimming on the right is idempotent. -/
theorem trimRightChars_idem (l : List Char) :
    trimRightChars (trimRightChars l) = trimRightChars l := by
  unfold trimRightChars
  rw [List.reverse_reverse, dropWhile_self]

/-- Trimming both ends is idempotent. -/
theorem jsTrimChars_idem (l : List Char) : jsTrimChars (jsTrimChars l) = jsTrimChars l := by
  unfold jsTrimChars
  have h1 : NoWsHead (trimLeftChars l) := noWsHead_dropWhile l
  have h2 : NoWsHead (trimRightChars (trimLeftChars l)) :=
    noWsHead_of_prefix_self (trimRightChars_prefix_self _) h1
  rw [show trimLeftChars (trimRightChars (trimLeftChars l)) = trimRightChars (trimLeftChars l)
        from dropWhile_eq_self_of_noWsHead _ h2,
      trimRightChars_idem]

/-- jsTrim is idempotent. -/
theorem jsTrim_idem (s : String) : jsTrim (jsTrim s) = jsTrim s :=
  congrArg String.mk (jsTrimChars_idem s.data)

/-- The conditional trim of the update route always yields a trimmed
string. -/
theorem jsTrim_condTrim (s : String) : jsTrim (condTrim s) = condTrim s := by
  unfold condTrim
  split
  · next h => rw [eq_of_beq h]; rfl
  · exact jsTrim_idem s

/-- On an already-trimmed string the conditional trim changes nothing. -/
theorem condTrim_eq_self (s : String) (h : jsTrim s = s) : condTrim s = s := by
  unfold condTrim
  split
  · rfl
  · exact h

/-- The create route only ever stores trimmed title, description and
assignee. -/
theorem appPostTasks_trimmed (s : Store) (body : ReqBody) (now : Nat)
    (hs : ∀ t ∈ s.tasks, TrimmedTask t) :
    ∀ t ∈ (appPostTasks s body now).fst.tasks, TrimmedTask t := by
  intro t ht
  unfold appPostTasks at ht
  cases hb : body.title with
  | none => rw [hb] at ht; exact hs t ht
  | some title =>
    rw [hb] at ht
    simp only at ht
    split at ht
    · exact hs t ht
    split at ht
    · exact hs t ht
    split at ht
    · exact hs t ht
    split at ht
    · exact hs t ht
    split at ht
    · exact hs t ht
    rw [List.mem_append] at ht
    rcases ht with h | h
    · exact hs t h
    · rw [List.mem_singleton] at h
      subst h
      exact ⟨jsTrim_idem _, jsTrim_idem _, jsTrim_idem _⟩

/-- The update route only ever stores trimmed title, description and
assignee. -/
theorem appPutTask_trimmed (s : Store) (id : Nat) (body : ReqBody) (now : Nat)
    (hs : ∀ t ∈ s.tasks, TrimmedTask t) :
    ∀ t ∈ (appPutTask s id body now).fst.tasks, TrimmedTask t := by
  intro t ht
  simp only [appPutTask] at ht
  repeat' split at ht
  all_goals try exact hs t ht
  rcases List.mem_or_eq_of_mem_set ht with h | h
  · exact hs t h
  · subst h
    exact ⟨jsTrim_condTrim _, jsTrim_condTrim _, jsTrim_condTrim _⟩

/-- The delete route stores no new task at all. -/
theorem appDeleteTask_trimmed (s : Store) (id : Nat)
    (hs : ∀ t ∈ s.tasks, TrimmedTask t) :
    ∀ t ∈ (appDeleteTask s id).fst.tasks, TrimmedTask t := by
  intro t ht
  simp only [appDeleteTask] at ht
  split at ht
  · exact hs t ((List.eraseIdx_sublist _ _).subset ht)
  · exact hs t ht

/-- Every API call preserves the trimmed-fields invariant. -/
theorem applyOp_trimmed (s : Store) (op : Op)
    (hs : ∀ t ∈ s.tasks, TrimmedTask t) :
    ∀ t ∈ ((applyOp s op).fst).tasks, TrimmedTask t := by
  cases op with
  | create body now => exact appPostTasks_trimmed s body now hs
  | update id body now => exact appPutTask_trimmed s id body now hs
  | del id => exact appDeleteTask_trimmed s id hs

/-- Any run of API calls preserves the trimmed-fields invariant. -/
theorem runOps_trimmed (ops : List Op) :
    ∀ (s : Store), (∀ t ∈ s.tasks, TrimmedTask t) →
      ∀ t ∈ (runOps s ops).tasks, TrimmedTask t := by
  induction ops with
  | nil => intro s hs; exact hs
  | cons op rest ih => intro s hs; exact ih _ (applyOp_trimmed s op hs)

/-! Freshness of generated ids. -/

/-- No API call ever decreases the id counter. -/
theorem applyOp_nextId_le (s : Store) (op : Op) : s.nextId ≤ ((applyOp s op).fst).nextId := by
  cases op with
  | create body now =>
    show s.nextId ≤ (appPostTasks s body now).fst.nextId
    simp only [appPostTasks]
    repeat' split
    all_goals simp
  | update id body now =>
    show s.nextId ≤ (appPutTask s id body now).fst.nextId
    simp only [appPutTask]
    repeat' split
    all_goals simp
  | del id =>
    show s.nextId ≤ (appDeleteTask s id).fst.nextId
    simp only [appDeleteTask]
    repeat' split
    all_goals simp

/-- A successful create returns a task carrying the current counter value
as id, and bumps the counter. -/
theorem appPostTasks_createdR (s : Store) (body : ReqBody) (now : Nat) (t : Task)
    (h : (appPostTasks s body now).snd = ApiResult.createdR t) :
    t.id = s.nextId ∧ (appPostTasks s body now).fst.nextId = s.nextId + 1 := by
  revert h
  simp only [appPostTasks]
  repeat' split
  all_goals intro h
  all_goals first
    | (simp only [ApiResult.createdR.injEq] at h; subst h; simp)
    | exact absurd h (by simp)

/-- The update route never answers 201 with a created task. -/
theorem appPutTask_not_createdR (s : Store) (id : Nat) (body : ReqBody) (now : Nat) (t : Task) :
    (appPutTask s id body now).snd ≠ ApiResult.createdR t := by
  simp only [appPutTask]
  repeat' split
  all_goals simp

/-- The delete route never answers 201 with a created task. -/
theorem appDeleteTask_not_createdR (s : Store) (id : Nat) (t : Task) :
    (appDeleteTask s id).snd ≠ ApiResult.createdR t := by
  simp only [appDeleteTask]
  repeat' split
  all_goals simp

/-- Whenever a call answers with a created task, that call was a create:
the returned id is the current counter value and the counter is bumped. -/
theorem applyOp_createdR (s : Store) (op : Op) (t : Task)
    (h : (applyOp s op).snd = ApiResult.createdR t) :
    t.id = s.nextId ∧ ((applyOp s op).fst).nextId = s.nextId + 1 := by
  cases op with
  | create body now => exact appPostTasks_createdR s body now t h
  | update id body now => exact absurd h (appPutTask_not_createdR s id body now t)
  | del id => exact absurd h (appDeleteTask_not_createdR s id t)

/-- Every id handed out by a create during a run is at least the counter
value at the start of the run. -/
theorem createdIds_lower_bound (ops : List Op) :
    ∀ (s : Store) (i : Nat), i ∈ createdIds s ops → s.nextId ≤ i := by
  induction ops with
  | nil => intro s i hi; simp [createdIds] at hi
  | cons op rest ih =>
    intro s i hi
    rw [createdIds] at hi
    cases hr : (applyOp s op).snd with
    | createdR t =>
      rw [hr] at hi
      simp only [List.mem_cons] at hi
      obtain ⟨hid, hnext⟩ := applyOp_createdR s op t hr
      rcases hi with h | h
      · exact le_of_eq (h.trans hid).symm
      · exact le_trans (by omega) (ih _ i h)
    | listR ts => rw [hr] at hi; exact le_trans (applyOp_nextId_le s op) (ih _ i hi)
    | okTask t2 => rw [hr] at hi; exact le_trans (applyOp_nextId_le s op) (ih _ i hi)
    | okBody b => rw [hr] at hi; exact le_trans (applyOp_nextId_le s op) (ih _ i hi)
    | err c m => rw [hr] at hi; exact le_trans (applyOp_nextId_le s op) (ih _ i hi)

/-- The ids handed out by the creates of a run are pairwise distinct. -/
theorem createdIds_nodup (ops : List Op) : ∀ (s : Store), (createdIds s ops).Nodup := by
  induction ops with
  | nil => intro s; simp [createdIds]
  | cons op rest ih =>
    intro s
    rw [createdIds]
    cases hr : (applyOp s op).snd with
    | createdR t =>
      refine List.nodup_cons.mpr ⟨?_, ih _⟩
      intro hmem
      obtain ⟨hid, hnext⟩ := applyOp_createdR s op t hr
      have hlb := createdIds_lower_bound rest _ _ hmem
      omega
    | listR ts => exact ih _
    | okTask t2 => exact ih _
    | okBody b => exact ih _
    | err c m => exact ih _

/-- findIndex on a list with no match runs off the end (the -1 of the JS
code corresponds to findIdx returning the length). -/
theorem findIdx_eq_length_of_none {α : Type} (p : α → Bool) :
    (l : List α) → (∀ a ∈ l, p a = false) → l.findIdx p = l.length
  | [], _ => rfl
  | a :: t, h => by
    rw [List.findIdx_cons, h a (List.mem_cons_self a t), cond_false, List.length_cons,
      findIdx_eq_length_of_none p t (fun b hb => h b (List.mem_cons_of_mem a hb))]

/-- C1: an update request whose id matches no stored task fails with the
404 Task-not-found error and returns the store unchanged: no task is
added, removed or modified. -/
theorem update_unknown_id_fails (s : Store) (id : Nat) (body : ReqBody) (now : Nat)
    (h : ∀ t ∈ s.tasks, t.id ≠ id) :
    appPutTask s id body now = (s, ApiResult.err 404 "Task not found") ∧
    (appPutTask s id body now).snd.statusCode = 404 := by
  have hf : s.tasks.findIdx (fun t => t.id == id) = s.tasks.length :=
    findIdx_eq_length_of_none _ _ (fun a ha => by simp [h a ha])
  have main : appPutTask s id body now = (s, ApiResult.err 404 "Task not found") := by
    simp only [appPutTask, hf]
    exact dif_neg (lt_irrefl _)
  exact ⟨main, by rw [main]; rfl⟩

/-- Witness for C1: updating id 5 in the empty store answers 404 and
leaves the store untouched. -/
theorem update_unknown_id_fails_witness :
    (∀ t ∈ Store.init.tasks, t.id ≠ 5) ∧
    (appPutTask Store.init 5 (statusOnlyBody "Editing") 3 =
        (Store.init, ApiResult.err 404 "Task not found") ∧
      (appPutTask Store.init 5 (statusOnlyBody "Editing") 3).snd.statusCode = 404) :=
  ⟨by decide, update_unknown_id_fails Store.init 5 (statusOnlyBody "Editing") 3 (by decide)⟩

/-- C4: a create whose title is missing or trims to the empty string
fails with the 400 title error, and the store - in particular the task
collection and its size - is unchanged. -/
theorem create_invalid_title_fails (s : Store) (body : ReqBody) (now : Nat)
    (h : body.title.all (fun ti => jsTrim ti == "") = true) :
    appPostTasks s body now =
      (s, ApiResult.err 400 "Title is required and must be a non-empty string") ∧
    (appPostTasks s body now).snd.statusCode = 400 := by
  have main : appPostTasks s body now =
      (s, ApiResult.err 400 "Title is required and must be a non-empty string") := by
    cases hb : body.title with
    | none => simp [appPostTasks, hb]
    | some ti =>
      rw [hb] at h
      simp only [Option.all_some] at h
      simp [appPostTasks, hb, h]
  exact ⟨main, by rw [main]; rfl⟩

/-- Witness for C4: creating with an all-whitespace title in the empty
store answers 400 and stores nothing. -/
theorem create_invalid_title_fails_witness :
    wsTitleBody.title.all (fun ti => jsTrim ti == "") = true ∧
    (appPostTasks Store.init wsTitleBody 2 =
        (Store.init, ApiResult.err 400 "Title is required and must be a non-empty string") ∧
      (appPostTasks Store.init wsTitleBody 2).snd.statusCode = 400) :=
  ⟨by decide,
   create_invalid_title_fails Store.init wsTitleBody 2 (by decide)⟩

/-- C5: listing returns exactly the stored tasks matching all provided
filters, in insertion order and no others, and does not modify the
store. -/
theorem list_filters_exactly (s : Store) (statusQ assigneeQ : Option String) :
    appGetTasks s statusQ assigneeQ =
      (s, ApiResult.listR (s.tasks.filter (fun t => specListMatch statusQ assigneeQ t))) := by
  cases statusQ with
  | none =>
    cases assigneeQ with
    | none => simp [appGetTasks, specListMatch]
    | some a =>
      by_cases ha : a == ""
      · simp [appGetTasks, specListMatch, ha]
      · simp [appGetTasks, specListMatch, ha]
  | some st =>
    by_cases hst : st == ""
    · cases assigneeQ with
      | none => simp [appGetTasks, specListMatch, hst]
      | some a =>
        by_cases ha : a == ""
        · simp [appGetTasks, specListMatch, hst, ha]
        · simp [appGetTasks, specListMatch, hst, ha]
    · cases assigneeQ with
      | none => simp [appGetTasks, specListMatch, hst]
      | some a =>
        by_cases ha : a == ""
        · simp [appGetTasks, specListMatch, hst, ha]
        · simp [appGetTasks, specListMatch, hst, ha, List.filter_filter, Bool.and_comm]

/-- C2: updating a stored task (whose string fields are trimmed, as every
reachable task is) with a payload holding only a valid status replaces
that task by a copy in which exactly status and updatedAt change - id,
createdAt, title, description, assignee and dueDate are untouched - and
leaves every other task in place. -/
theorem update_status_only (s : Store) (id now : Nat) (st : String) (i : Nat)
    (hi : i < s.tasks.length)
    (hfind : s.tasks.findIdx (fun t => t.id == id) = i)
    (hst : VALID_STATUSES.contains st = true)
    (ht : TrimmedTask (s.tasks.get ⟨i, hi⟩)) :
    (appPutTask s id (statusOnlyBody st) now).fst.tasks =
      s.tasks.set i ({ s.tasks.get ⟨i, hi⟩ with status := st, updatedAt := now }) ∧
    (appPutTask s id (statusOnlyBody st) now).snd =
      ApiResult.okTask ({ s.tasks.get ⟨i, hi⟩ with status := st, updatedAt := now }) := by
  obtain ⟨h1, h2, h3⟩ := ht
  have hmem : st ∈ VALID_STATUSES := by simpa using hst
  simp only [List.get_eq_getElem] at h1 h2 h3
  simp only [appPutTask, hfind, statusOnlyBody]
  rw [dif_pos hi]
  constructor <;>
    simp [hmem, condTrim_eq_self _ h1, condTrim_eq_self _ h2, condTrim_eq_self _ h3]

/-- Witness for C2: moving task0 to Editing at time 9 changes exactly its
status and updatedAt. -/
theorem update_status_only_witness :
    VALID_STATUSES.contains "Editing" = true ∧ TrimmedTask task0 ∧
    (appPutTask store1 0 (statusOnlyBody "Editing") 9).fst.tasks =
      [{ task0 with status := "Editing", updatedAt := 9 }] ∧
    (appPutTask store1 0 (statusOnlyBody "Editing") 9).snd =
      ApiResult.okTask ({ task0 with status := "Editing", updatedAt := 9 }) :=
  ⟨by decide, ⟨by decide, by decide, by decide⟩,
   ((update_status_only store1 0 9 "Editing" 0 (by decide) (by decide) (by decide)
      ⟨by decide, by decide, by decide⟩).1).trans (by decide),
   ((update_status_only store1 0 9 "Editing" 0 (by decide) (by decide) (by decide)
      ⟨by decide, by decide, by decide⟩).2).trans (by decide)⟩

/-- A successful create reports a task whose status is the status of the
body, defaulted to Idea when absent. -/
theorem appPostTasks_createdR_status (s : Store) (body : ReqBody) (now : Nat) (t : Task)
    (h : (appPostTasks s body now).snd = ApiResult.createdR t) :
    t.status = body.status.getD "Idea" := by
  revert h
  simp only [appPostTasks]
  repeat' split
  all_goals intro h
  all_goals first
    | (simp only [ApiResult.createdR.injEq] at h; subst h; simp)
    | exact absurd h (by simp)

/-- C3: across any run of API calls from the initial store, the ids of
the tasks returned by successful creates are pairwise distinct; and a
valid create whose body omits status yields a task whose status is Idea,
the first workflow stage. -/
theorem create_ids_fresh_and_status_defaults :
    (∀ ops : List Op, (createdIds Store.init ops).Nodup) ∧
    (∀ (s : Store) (body : ReqBody) (now : Nat) (t : Task),
        body.status = none → (appPostTasks s body now).snd = ApiResult.createdR t →
        t.status = "Idea") ∧
    VALID_STATUSES.head? = some "Idea" := by
  refine ⟨fun ops => createdIds_nodup ops Store.init, ?_, rfl⟩
  intro s body now t hstatus h
  have hs := appPostTasks_createdR_status s body now t h
  rw [hstatus] at hs
  exact hs

/-- Witness for C3: two consecutive creates from the initial store hand
out distinct ids, and the status-free rawBody create yields status
Idea. -/
theorem create_ids_fresh_and_status_defaults_witness :
    (createdIds Store.init [Op.create rawBody 4, Op.create rawBody 5]).Nodup ∧
    rawBody.status = none ∧
    (appPostTasks Store.init rawBody 4).snd = ApiResult.createdR rawBodyTask ∧
    rawBodyTask.status = "Idea" :=
  ⟨create_ids_fresh_and_status_defaults.1 [Op.create rawBody 4, Op.create rawBody 5],
   by decide, by decide,
   create_ids_fresh_and_status_defaults.2.1 Store.init rawBody 4 rawBodyTask
     (by decide) (by decide)⟩

/-- C6 (amended): deleting a stored id succeeds with HTTP 200, removes
exactly that task, and answers with a body whose message key carries the
deletion notice and whose task key carries the removed record. -/
theorem delete_known_id (s : Store) (id : Nat) (i : Nat) (hi : i < s.tasks.length)
    (hfind : s.tasks.findIdx (fun t => t.id == id) = i) :
    (appDeleteTask s id).fst.tasks = s.tasks.eraseIdx i ∧
    (appDeleteTask s id).snd =
      ApiResult.okBody [("message", BodyVal.s "Task deleted"),
                        ("task", BodyVal.t (s.tasks.get ⟨i, hi⟩))] ∧
    (appDeleteTask s id).snd.statusCode = 200 := by
  have main : appDeleteTask s id =
      ({ s with tasks := s.tasks.eraseIdx i },
       ApiResult.okBody [("message", BodyVal.s "Task deleted"),
                         ("task", BodyVal.t (s.tasks.get ⟨i, hi⟩))]) := by
    simp only [appDeleteTask, hfind]
    rw [dif_pos hi]
  exact ⟨by rw [main], by rw [main], by rw [main]; rfl⟩

/-- Witness for C6 (amended): deleting task0 from store1. -/
theorem delete_known_id_witness :
    (appDeleteTask store1 0).fst.tasks = [] ∧
    (appDeleteTask store1 0).snd =
      ApiResult.okBody [("message", BodyVal.s "Task deleted"), ("task", BodyVal.t task0)] ∧
    (appDeleteTask store1 0).snd.statusCode = 200 :=
  ⟨((delete_known_id store1 0 0 (by decide) (by decide)).1).trans (by decide),
   ((delete_known_id store1 0 0 (by decide) (by decide)).2.1).trans (by decide),
   (delete_known_id store1 0 0 (by decide) (by decide)).2.2⟩

/-- C6 as stated fails: the success body of a delete carries the removed
record under the key task; there is no deletedTask key. -/
theorem delete_body_shape_counterexample :
    (appDeleteTask store1 0).snd =
      ApiResult.okBody [("message", BodyVal.s "Task deleted"), ("task", BodyVal.t task0)] ∧
    (match (appDeleteTask store1 0).snd with
     | ApiResult.okBody b => List.lookup "deletedTask" b
     | _ => none) = none ∧
    (match (appDeleteTask store1 0).snd with
     | ApiResult.okBody b => List.lookup "task" b
     | _ => none) = some (BodyVal.t task0) := by decide

/-- C7 (amended): in every store reachable by API calls from the initial
store, every stored task carries trimmed title, description and
assignee; dueDate is excluded, since the routes never trim it. -/
theorem reachable_tasks_trimmed (ops : List Op) :
    ∀ t ∈ (runOps Store.init ops).tasks,
      jsTrim t.title = t.title ∧ jsTrim t.description = t.description ∧
        jsTrim t.assignee = t.assignee :=
  runOps_trimmed ops Store.init (fun t ht => absurd ht (List.not_mem_nil t))

/-- Witness for C7 (amended): the task stored for the whitespace-padded
rawBody create has trimmed title, description and assignee. -/
theorem reachable_tasks_trimmed_witness :
    rawBodyTask ∈ (runOps Store.init [Op.create rawBody 4]).tasks ∧
    (jsTrim rawBodyTask.title = rawBodyTask.title ∧
      jsTrim rawBodyTask.description = rawBodyTask.description ∧
      jsTrim rawBodyTask.assignee = rawBodyTask.assignee) :=
  ⟨by decide, reachable_tasks_trimmed [Op.create rawBody 4] rawBodyTask (by decide)⟩

/-- C7 as stated fails: a create whose dueDate is whitespace-padded but
still parseable stores the dueDate untrimmed, so a reachable store holds
a task with leading whitespace in a string field. -/
theorem stored_dueDate_untrimmed_counterexample :
    (runOps Store.init [Op.create paddedDueBody 0]).tasks.length = 1 ∧
    ((runOps Store.init [Op.create paddedDueBody 0]).tasks.all
      (fun t => jsTrim t.dueDate == t.dueDate)) = false := by decide

/-- C8: on a drop of a dragged task card onto a column, the board client
issues a PUT if and only if the target column status differs from the
dragged task's current status, and that PUT changes only the status;
dropping onto the current column issues nothing. -/
theorem drop_updates_iff_status_differs (tid : Nat) (tasks : List Task) (colStatus : String)
    (task : Task) (hfind : tasks.find? (fun t => t.id == tid) = some task) :
    ((handleDrop (some tid) tasks colStatus).isSome ↔ task.status ≠ colStatus) ∧
    (task.status ≠ colStatus →
      handleDrop (some tid) tasks colStatus = some ⟨tid, statusOnlyBody colStatus⟩) ∧
    (task.status = colStatus → handleDrop (some tid) tasks colStatus = none) := by
  simp only [handleDrop, hfind]
  by_cases h : task.status = colStatus
  · simp [h]
  · simp [h]

/-- Witness for C8: dropping the dragged task0 onto Drafting issues the
status-only PUT, while dropping it onto its own Idea column issues
nothing. -/
theorem drop_updates_iff_status_differs_witness :
    [task0].find? (fun t => t.id == 0) = some task0 ∧
    handleDrop (some 0) [task0] "Drafting" = some ⟨0, statusOnlyBody "Drafting"⟩ ∧
    handleDrop (some 0) [task0] "Idea" = none :=
  ⟨by decide,
   (drop_updates_iff_status_differs 0 [task0] "Drafting" task0 (by decide)).2.1 (by decide),
   (drop_updates_iff_status_differs 0 [task0] "Idea" task0 (by decide)).2.2 (by decide)⟩

/-- C9 (amended): updating a stored task with a payload whose only
binding is a key outside the task field set - other than id, createdAt
and updatedAt, the three keys the route itself writes after the spread -
stores and returns that task with the extra key bound to the payload
value: the spread merge accepts arbitrary unknown fields. -/
theorem update_merges_unknown_fields (s : Store) (id now : Nat) (k v : String) (i : Nat)
    (hi : i < s.tasks.length)
    (hfind : s.tasks.findIdx (fun t => t.id == id) = i)
    (_hk : k ∉ ["id", "title", "description", "assignee", "dueDate", "status", "createdAt", "updatedAt"])
    (ht : TrimmedTask (s.tasks.get ⟨i, hi⟩)) :
    (appPutTask s id (extraOnlyBody k v) now).fst.tasks =
      s.tasks.set i
        ({ s.tasks.get ⟨i, hi⟩ with
           updatedAt := now
           extra := (k, v) :: (s.tasks.get ⟨i, hi⟩).extra }) ∧
    (appPutTask s id (extraOnlyBody k v) now).snd =
      ApiResult.okTask
        ({ s.tasks.get ⟨i, hi⟩ with
           updatedAt := now
           extra := (k, v) :: (s.tasks.get ⟨i, hi⟩).extra }) ∧
    List.lookup k ((k, v) :: (s.tasks.get ⟨i, hi⟩).extra) = some v := by
  obtain ⟨h1, h2, h3⟩ := ht
  simp only [List.get_eq_getElem] at h1 h2 h3
  simp only [appPutTask, hfind, extraOnlyBody]
  rw [dif_pos hi]
  refine ⟨?_, ?_, ?_⟩
  · simp [condTrim_eq_self _ h1, condTrim_eq_self _ h2, condTrim_eq_self _ h3]
  · simp [condTrim_eq_self _ h1, condTrim_eq_self _ h2, condTrim_eq_self _ h3]
  · simp [List.lookup]

/-- Witness for C9: updating task0 with the unknown key priority stores
and returns the task carrying that key. -/
theorem update_merges_unknown_fields_witness :
    ("priority" ∉ ["id", "title", "description", "assignee", "dueDate", "status", "createdAt", "updatedAt"]) ∧
    (appPutTask store1 0 (extraOnlyBody "priority" "high") 9).fst.tasks =
      [{ task0 with updatedAt := 9, extra := [("priority", "high")] }] ∧
    (appPutTask store1 0 (extraOnlyBody "priority" "high") 9).snd =
      ApiResult.okTask ({ task0 with updatedAt := 9, extra := [("priority", "high")] }) ∧
    List.lookup "priority" [("priority", "high")] = some "high" :=
  ⟨by decide,
   ((update_merges_unknown_fields store1 0 9 "priority" "high" 0 (by decide) (by decide)
      (by decide) ⟨by decide, by decide, by decide⟩).1).trans (by decide),
   ((update_merges_unknown_fields store1 0 9 "priority" "high" 0 (by decide) (by decide)
      (by decide) ⟨by decide, by decide, by decide⟩).2.1).trans (by decide),
   by decide⟩

/-- C9 as stated fails at the key updatedAt, which lies outside the
claimed field set of title, description, assignee, dueDate and status
and is neither id nor createdAt: updating task0 with a payload binding
only updatedAt to 42, at request time 9, stores and returns the task
with updatedAt 9 - the payload value is discarded, because the route
writes its own updatedAt after the spread. -/
theorem update_payload_updatedAt_counterexample :
    updatedAtBody.updatedAt = some 42 ∧
    (appPutTask store1 0 updatedAtBody 9).snd = ApiResult.okTask ({ task0 with updatedAt := 9 }) ∧
    (appPutTask store1 0 updatedAtBody 9).fst.tasks = [{ task0 with updatedAt := 9 }] ∧
    ((appPutTask store1 0 updatedAtBody 9).fst.tasks.all (fun t => t.updatedAt == 42)) = false := by
  decide

/-- C10: the 200-character title limit is checked against the raw,
untrimmed title, on create and on update of a stored task: a title of
raw length above 200 whose trimmed length is at most 200 is still
rejected with 400 and causes no mutation. -/
theorem title_length_pre_trim_check :
    (∀ (s : Store) (body : ReqBody) (now : Nat) (ti : String),
        body.title = some ti → 200 < ti.length → (jsTrim ti).length ≤ 200 →
        (appPostTasks s body now).snd.statusCode = 400 ∧
          (appPostTasks s body now).fst = s) ∧
    (∀ (s : Store) (id : Nat) (body : ReqBody) (now : Nat) (ti : String) (i : Nat),
        i < s.tasks.length →
        s.tasks.findIdx (fun t => t.id == id) = i →
        body.title = some ti → 200 < ti.length → (jsTrim ti).length ≤ 200 →
        (appPutTask s id body now).snd.statusCode = 400 ∧
          (appPutTask s id body now).fst = s) := by
  constructor
  · intro s body now ti hb hlen htr
    have main : appPostTasks s body now =
        (s, ApiResult.err 400 "Title is required and must be a non-empty string") ∨
        appPostTasks s body now =
        (s, ApiResult.err 400 "Title must be 200 characters or less") := by
      cases hjt : jsTrim ti == "" with
      | true => left; simp [appPostTasks, hb, hjt]
      | false => right; simp [appPostTasks, hb, hjt, hlen]
    rcases main with h | h <;> rw [h] <;> exact ⟨rfl, rfl⟩
  · intro s id body now ti i hi hfind hb hlen htr
    have main : appPutTask s id body now =
        (s, ApiResult.err 400 "Title must be a non-empty string") ∨
        appPutTask s id body now =
        (s, ApiResult.err 400 "Title must be 200 characters or less") := by
      cases hjt : jsTrim ti == "" with
      | true =>
        left
        simp only [appPutTask, hfind]
        rw [dif_pos hi]
        simp [hb, hjt]
      | false =>
        right
        simp only [appPutTask, hfind]
        rw [dif_pos hi]
        simp [hb, hjt, hlen]
    rcases main with h | h <;> rw [h] <;> exact ⟨rfl, rfl⟩

set_option maxRecDepth 8000

/-- Witness for C10: the 201-character longTitle (which trims to one
character) is rejected by both the create route and the update route of
store1, with no mutation. -/
theorem title_length_pre_trim_check_witness :
    longTitleBody.title = some longTitle ∧
    200 < longTitle.length ∧ (jsTrim longTitle).length ≤ 200 ∧
    ((appPostTasks Store.init longTitleBody 1).snd.statusCode = 400 ∧
      (appPostTasks Store.init longTitleBody 1).fst = Store.init) ∧
    ((appPutTask store1 0 longTitleBody 1).snd.statusCode = 400 ∧
      (appPutTask store1 0 longTitleBody 1).fst = store1) :=
  ⟨rfl, by decide, by decide,
   title_length_pre_trim_check.1 Store.init longTitleBody 1
     longTitle rfl (by decide) (by decide),
   title_length_pre_trim_check.2 store1 0 longTitleBody 1
     longTitle 0 (by decide) (by decide) rfl (by decide) (by decide)⟩

end WeeklySpaceman
